import Mathlib

/-!
# timescaledb-event-streamer: stdout sink and stats service

A shallow embedding of

* `internal/eventing/sinks/stdout/stdout.go` (`newStdoutSink`, `stdoutSink.Emit`),
* `internal/stats/stats.go` (`NewStatsService`, `Service.Start`, `Service.Stop`),
* the delivery path exercised by `tests/integration/nats/nats_sink_test.go`.

Go values are modelled as follows.

* `error` is `Option GoError`, `none` being `nil`.
* `schema.Struct` is `map[string]any`.  A Go map value is either `nil` or a reference to a
  finite table from keys to values; `Struct V` is `Option (GoMap V)` where `V` stands for the
  dynamic values (`any`).  Since a map is passed by reference, a function that mutates its
  argument returns the table the caller sees after the call.
* `json.Marshal` belongs to the Go standard library.  `stdoutSink.Emit` takes it as the
  parameter `marshal`; `jsonMarshal` is a model of it on a first-order fragment of values.
* A logger is the list of lines handed to it so far.
-/

namespace Streamer

/-! ## Errors -/

/-- A Go `error` value: a message, possibly wrapping a cause. -/
inductive GoError where
  | mk (msg : String)
  | wrap (msg : String) (cause : GoError)
  deriving DecidableEq, Repr

/-- The `errors.Is` test: `err` or one of the errors it wraps equals `target`. -/
def GoError.Is : GoError → GoError → Bool
  | .mk m, target => decide (GoError.mk m = target)
  | .wrap m c, target => decide (GoError.wrap m c = target) || GoError.Is c target

/-! ## Maps -/

/-- The table behind a non-nil `map[string]V`. -/
abbrev GoMap (V : Type) := Finmap (fun _ : String => V)

/-- A value of type `schema.Struct` (`map[string]any`): `none` is the nil map. -/
abbrev Struct (V : Type) := Option (GoMap V)

/-- The index expression `v, ok := m[k]`; reading a nil map finds nothing. -/
def Struct.lookup {V : Type} (m : Struct V) (k : String) : Option V :=
  m.bind (Finmap.lookup k)

/-- The builtin `delete(m, k)`; a no-op on a nil map and on an absent key. -/
def Struct.delete {V : Type} (m : Struct V) (k : String) : Struct V :=
  m.map (Finmap.erase k)

/-! ## Logging -/

/-- A `logging.Logger`: its name and the lines written through it, oldest first. -/
structure Logger where
  name : String
  lines : List String
  deriving DecidableEq, Repr

/-- Constructor `logging.NewLogger(name)`. -/
def NewLogger (name : String) : Logger :=
  { name := name, lines := [] }

/-- Method `Infof` once the format has been expanded to `line`. -/
def Logger.Infof (l : Logger) (line : String) : Logger :=
  { l with lines := l.lines ++ [line] }

/-! ## The stdout sink -/

/-- A `time.Time`. -/
structure Time where
  unixNano : Int
  deriving DecidableEq, Repr

/-- Receiver type `stdoutSink`. -/
structure stdoutSink where
  logger : Logger
  deriving DecidableEq, Repr

/-- Factory `newStdoutSink(_ *spiconfig.Config) (sink.Sink, error)`, the function `init`
registers for the sink kind `spiconfig.Stdout`. `Cfg` stands for `spiconfig.Config`, whose
declaration lies outside these files, and `none` for a nil pointer; the two components of
the result are the returned sink pointer and the returned error. -/
def newStdoutSink {Cfg : Type} (_c : Option Cfg) : Option stdoutSink × Option GoError :=
  (some { logger := NewLogger "StdoutSink" }, none)

/-- The expansion of `fmt.Sprintf("===> /%s: \t%s\n", topicName, string(data))`. -/
def emitLine (topicName data : String) : String :=
  "===> /" ++ topicName ++ ": \t" ++ data ++ "\n"

/-- What a call of `stdoutSink.Emit` leaves behind: the sink (its logger), the table behind
the caller's envelope, and the returned error. -/
structure EmitOutcome (V : Type) where
  sink : stdoutSink
  envelope : Struct V
  err : Option GoError

/-- Method `stdoutSink.Emit(_ time.Time, topicName string, _, envelope schema.Struct) error`. -/
def stdoutSink.Emit {V : Type} (marshal : Struct V → Except GoError String)
    (s : stdoutSink) (_ts : Time) (topicName : String) (_key envelope : Struct V) :
    EmitOutcome V :=
  let envelope := envelope.delete "schema"
  match marshal envelope with
  | .error err => { sink := s, envelope := envelope, err := some err }
  | .ok data =>
    { sink := { s with logger := s.logger.Infof (emitLine topicName data) },
      envelope := envelope, err := none }

/-- The lines a call added to the log, given the log before and after. -/
def loggedBy (before after : stdoutSink) : List String :=
  after.logger.lines.drop before.logger.lines.length

/-! ## The stats service -/

/-- The configuration properties `NewStatsService` reads: `config.PropertyStatsEnabled`,
`config.PropertyStatsPort` and `config.PropertyRuntimeStatsEnabled`. -/
inductive Property where
  | StatsEnabled
  | StatsPort
  | RuntimeStatsEnabled
  deriving DecidableEq, Repr

/-- A `prometheus.Handler`. -/
structure Handler where
  TrimPrefix : String
  deriving DecidableEq, Repr

/-- A `stats.Engine`: its name and the handler it reports to. -/
structure Engine where
  name : String
  handler : Handler
  deriving DecidableEq, Repr

/-- The `io.Closer` that `procstats.StartCollector` returns: a collector that runs until it
is closed. -/
structure Collector where
  closed : Bool
  deriving DecidableEq, Repr

/-- Method `Close` of the collector. -/
def Collector.Close (c : Collector) : Collector :=
  { c with closed := true }

/-- An `http.Server`: its address and the number of times `Shutdown` was called on it. -/
structure Server where
  Addr : String
  shutdowns : Nat
  deriving DecidableEq, Repr

/-- Receiver type `Service`; `runtimeMetricsCloser` is `none` for a nil interface value. -/
structure Service where
  statsEnabled : Bool
  handler : Handler
  engine : Engine
  server : Server
  runtimeMetricsCloser : Option Collector
  deriving DecidableEq, Repr

/-- Constructor `NewStatsService(c *config.Config) *Service`. `binName` is `version.BinName`;
`getBool` and `getInt` are `config.GetOrDefault` at the types `bool` and `int`. -/
def NewStatsService {Cfg : Type} (binName : String)
    (getBool : Option Cfg → Property → Bool → Bool)
    (getInt : Option Cfg → Property → Int → Int) (c : Option Cfg) : Service :=
  let statsHandler : Handler := { TrimPrefix := binName }
  let statsEnabled := getBool c .StatsEnabled true
  let statsPort := getInt c .StatsPort 8081
  let runtimeStatsEnabled := getBool c .RuntimeStatsEnabled true
  let engine : Engine := { name := binName, handler := statsHandler }
  let runtimeMetricsCloser : Option Collector :=
    if runtimeStatsEnabled then some { closed := false } else none
  { runtimeMetricsCloser := runtimeMetricsCloser,
    statsEnabled := statsEnabled,
    handler := statsHandler,
    engine := engine,
    server := { Addr := ":" ++ toString statsPort, shutdowns := 0 } }

/-- The sentinel `http.ErrServerClosed`. -/
def ErrServerClosed : GoError := .mk "http: Server closed"

/-- How a goroutine ends: its function returns, or it panics with a value nobody recovers,
which aborts the process. -/
inductive GoroutineExit where
  | returned
  | panicked (value : GoError)
  deriving DecidableEq, Repr

/-- The body of the goroutine `Start` launches, given what `ListenAndServe` returns. -/
def serve (listenAndServe : Server → Option GoError) (server : Server) : GoroutineExit :=
  match listenAndServe server with
  | none => .returned
  | some err => if !(err.Is ErrServerClosed) then .panicked err else .returned

/-- What a call of `Service.Start` does: the error it returns and, if it launched a
goroutine, how that goroutine ends. -/
structure StartOutcome where
  err : Option GoError
  goroutine : Option GoroutineExit
  deriving DecidableEq, Repr

/-- Method `Service.Start() error`. -/
def Service.Start (listenAndServe : Server → Option GoError) (s : Service) : StartOutcome :=
  if s.statsEnabled then
    { err := none, goroutine := some (serve listenAndServe s.server) }
  else
    { err := none, goroutine := none }

/-- Whether the call ends in an unrecovered panic, hence in the abort of the process. -/
def StartOutcome.aborts (o : StartOutcome) : Bool :=
  match o.goroutine with
  | some (.panicked _) => true
  | _ => false

/-- Method `Service.Stop() error`: the service after the call and the returned error.
`shutdown` is what `server.Shutdown(context.Background())` returns. -/
def Service.Stop (shutdown : Server → Option GoError) (s : Service) :
    Service × Option GoError :=
  if !s.statsEnabled then
    (s, none)
  else
    let closer := s.runtimeMetricsCloser.map Collector.Close
    ({ s with runtimeMetricsCloser := closer,
              server := { s.server with shutdowns := s.server.shutdowns + 1 } },
      shutdown s.server)

/-! ## JSON encoding -/


/-- A code-point view of a string; Go compares strings bytewise, which on UTF-8 text is the
order of the code-point sequences. -/
def keyCode (s : String) : List Nat := s.data.map Char.toNat

/-- The order in which `encoding/json` writes the keys of a map. -/
def keyLE (a b : String) : Prop := keyCode a ≤ keyCode b

instance keyLE.decidable : DecidableRel keyLE :=
  fun a b => inferInstanceAs (Decidable (keyCode a ≤ keyCode b))

instance keyLE.isTotal : IsTotal String keyLE :=
  ⟨fun a b => le_total (keyCode a) (keyCode b)⟩

instance keyLE.isTrans : IsTrans String keyLE :=
  ⟨fun _ _ _ h₁ h₂ => le_trans h₁ h₂⟩

instance keyLE.isAntisymm : IsAntisymm String keyLE :=
  ⟨fun a b h₁ h₂ => by
    have hc : Function.Injective Char.toNat := fun x y hxy => by
      rw [← Char.ofNat_toNat x, ← Char.ofNat_toNat y, hxy]
    exact String.ext (List.map_injective_iff.mpr hc (le_antisymm h₁ h₂))⟩

/-- The keys of a table in encoding order. -/
def GoMap.sortedKeys {V : Type} (m : GoMap V) : List String :=
  Quot.liftOn m.keys.val (List.insertionSort keyLE) (fun l₁ l₂ h =>
    List.eq_of_perm_of_sorted
      (((List.perm_insertionSort _ l₁).trans h).trans (List.perm_insertionSort _ l₂).symm)
      (List.sorted_insertionSort _ l₁) (List.sorted_insertionSort _ l₂))

/-- The entries of a table in encoding order. -/
def GoMap.sortedEntries {V : Type} (m : GoMap V) : List (String × V) :=
  m.sortedKeys.filterMap (fun k => (m.lookup k).map (fun v => (k, v)))

/-- A first-order fragment of the dynamic values an envelope may hold: JSON scalars, and
`unsupported t` for a value of a Go type `t` that `encoding/json` refuses (a channel, a
function, a complex number). -/
inductive Value where
  | null
  | bool (b : Bool)
  | int (n : Int)
  | str (s : String)
  | unsupported (goType : String)
  deriving DecidableEq, Repr

def hexDigit (n : Nat) : Char :=
  Char.ofNat (if n < 10 then 48 + n else 87 + n)

def quoteMark : String := String.singleton (Char.ofNat 34)

def backslash : String := String.singleton (Char.ofNat 92)

/-- How `encoding/json` writes one character of a string with HTML escaping on (the default
of `json.Marshal`): the quote and the backslash are escaped, line feed, carriage return and
tab get their short escapes, the other control characters, `<`, `>`, `&`, U+2028 and U+2029
are written as `\uXXXX` (releases from Go 1.22 on shorten backspace and form feed). -/
def escapeChar (c : Char) : String :=
  let n := c.toNat
  if n = 34 ∨ n = 92 then backslash ++ String.singleton c
  else if n = 10 then backslash ++ "n"
  else if n = 13 then backslash ++ "r"
  else if n = 9 then backslash ++ "t"
  else if n < 32 ∨ n = 60 ∨ n = 62 ∨ n = 38 then
    backslash ++ "u00" ++ String.mk [hexDigit (n / 16), hexDigit (n % 16)]
  else if n = 8232 ∨ n = 8233 then
    backslash ++ "u202" ++ String.singleton (hexDigit (n % 16))
  else String.singleton c

/-- A JSON string literal. -/
def encodeString (s : String) : String :=
  quoteMark ++ String.join (s.data.map escapeChar) ++ quoteMark

/-- The encoding of one value, or `json.UnsupportedTypeError`. -/
def encodeValue : Value → Except GoError String
  | .null => .ok "null"
  | .bool true => .ok "true"
  | .bool false => .ok "false"
  | .int n => .ok (toString n)
  | .str s => .ok (encodeString s)
  | .unsupported t => .error (.mk ("json: unsupported type: " ++ t))

/-- The encoding of one map entry. -/
def encodeEntry (kv : String × Value) : Except GoError String :=
  match encodeValue kv.2 with
  | .ok e => .ok (encodeString kv.1 ++ ":" ++ e)
  | .error err => .error err

/-- The encodings of a list of entries, stopping at the first error. -/
def encodeEntries : List (String × Value) → Except GoError (List String)
  | [] => .ok []
  | kv :: rest =>
    match encodeEntry kv with
    | .error err => .error err
    | .ok e =>
      match encodeEntries rest with
      | .error err => .error err
      | .ok es => .ok (e :: es)

/-- Model of `json.Marshal` at type `map[string]any` on the fragment `Value`: a nil map is
written `null`, any other map as an object whose keys are sorted. -/
def jsonMarshal : Struct Value → Except GoError String
  | none => .ok "null"
  | some m =>
    match encodeEntries m.sortedEntries with
    | .error err => .error err
    | .ok es => .ok ("\x7b" ++ ",".intercalate es ++ "\x7d")

/-- Builds a table by assigning the listed entries from last to first. -/
def GoMap.ofList {V : Type} (l : List (String × V)) : GoMap V :=
  l.foldr (fun kv m => m.insert kv.1 kv.2) ∅

/-! ## Dispatch of a transaction

The dispatcher, the offset store and the data they work on are not among the files above;
only the integration test of the NATS sink is.  The definitions of this section follow the
specification of the pipeline. -/

/-- Modelled from the spec: the operation of a `ChangeRecord` (the dispatcher's data model is
not in the source files), `operation ∈ {Insert, Update, Delete, Truncate}`. -/
inductive Operation where
  | Insert
  | Update
  | Delete
  | Truncate
  deriving DecidableEq, Repr

/-- Modelled from the spec: one column of a `RelationSchema` (not in the source files),
`(columnName, dataType, nullable, isKey)`. -/
structure Column where
  columnName : String
  dataType : String
  nullable : Bool
  isKey : Bool
  deriving DecidableEq, Repr

/-- Modelled from the spec: a `RelationSchema` (not in the source files), a schema-qualified
relation name, a version number and an ordered list of columns. -/
structure RelationSchema where
  schemaName : String
  tableName : String
  version : Nat
  columns : List Column
  deriving DecidableEq, Repr

/-- Modelled from the spec: a `ChangeRecord` (not in the source files), one logical row
mutation with its optional before and after images, its stream position and the commit
timestamp. -/
structure ChangeRecord where
  operation : Operation
  relation : RelationSchema
  before : Option (GoMap Value)
  after : Option (GoMap Value)
  position : Nat
  commitTimestamp : Time

/-- Modelled from the spec: a `Transaction` (not in the source files), the ordered sequence
of change records between BEGIN and COMMIT, tagged with the commit position and timestamp. -/
structure Transaction where
  records : List ChangeRecord
  commitPosition : Nat
  commitTimestamp : Time

/-- Modelled from the spec: the source metadata of an `Envelope` (not in the source files),
position, timestamp and operation. -/
structure SourceMetadata where
  position : Nat
  timestamp : Time
  operation : Operation
  deriving DecidableEq, Repr

/-- Modelled from the spec: an `Envelope` (the dispatcher's envelope builder is not in the
source files), the sink-facing representation of one change record: topic, key, before,
after, source metadata and an optional schema descriptor. -/
structure Envelope where
  topic : String
  key : List Value
  before : Option (GoMap Value)
  after : Option (GoMap Value)
  source : SourceMetadata
  schemaDescriptor : Option RelationSchema

/-- Modelled from the spec: topic derivation (not in the source files), from the relation
identity and the configured prefix; the test subscribes to `prefix.schemaName.tableName`. -/
def topicOf (topicPrefix : String) (r : RelationSchema) : String :=
  topicPrefix ++ "." ++ r.schemaName ++ "." ++ r.tableName

/-- Modelled from the spec: envelope key derivation (not in the source files), the values of
the relation's key columns in schema-declared order, taken from the after image or else the
before image; empty when the relation declares no key. -/
def keyOf (r : ChangeRecord) : List Value :=
  let image := r.after.orElse (fun _ => r.before)
  (r.relation.columns.filter (fun c => c.isKey)).filterMap
    (fun c => image.bind (Finmap.lookup c.columnName))

/-- Modelled from the spec: the envelope the Dispatcher builds for one change record (the
builder is not in the source files). -/
def buildEnvelope (topicPrefix : String) (r : ChangeRecord) : Envelope :=
  { topic := topicOf topicPrefix r.relation,
    key := keyOf r,
    before := r.before,
    after := r.after,
    source := { position := r.position, timestamp := r.commitTimestamp,
                operation := r.operation },
    schemaDescriptor := some r.relation }

/-- Modelled from the spec: a sink behind the emission contract (the NATS sink and the test
subscriber are not in the source files). It keeps the envelopes that reached the
subscriber, in order of arrival, and the outcomes of the attempts still to come: `true` for
an attempt that fails. An attempt past the end of the list succeeds. -/
structure RecordingSink where
  received : List Envelope
  failures : List Bool

/-- Modelled from the spec: the sink contract `emit(timestamp, topicName, key, envelope) →
error` (the sink is not in the source files). A returned error is a delivery failure: the
envelope did not arrive. -/
def RecordingSink.emit (s : RecordingSink) (_ts : Time) (_topicName : String)
    (_key : List Value) (envelope : Envelope) : RecordingSink × Option GoError :=
  match s.failures with
  | true :: rest => ({ s with failures := rest }, some (.mk "delivery failed"))
  | false :: rest => ({ received := s.received ++ [envelope], failures := rest }, none)
  | [] => ({ s with received := s.received ++ [envelope] }, none)

/-- Modelled from the spec: the Dispatcher's retry policy (not in the source files). An
emission is attempted up to `attempts` times; the result is `none` once an attempt succeeds
and the last error once the attempts are exhausted. The backoff between attempts is time
and is left out. -/
def emitWithRetry : (attempts : Nat) → RecordingSink → Envelope →
    RecordingSink × Option GoError
  | 0, s, _ => (s, some (.mk "DeliveryError: attempt ceiling reached"))
  | n + 1, s, e =>
    match s.emit e.source.timestamp e.topic e.key e with
    | (s₂, none) => (s₂, none)
    | (s₂, some _) => emitWithRetry n s₂ e

/-- Modelled from the spec: the outcome of `dispatch` (not in the source files). -/
inductive DispatchResult where
  | ok
  | fatal (err : GoError)
  deriving DecidableEq, Repr

/-- Modelled from the spec: the delivery loop of the Dispatcher (not in the source files).
For each change record in commit order it builds an envelope and invokes the sink; when the
retries of one record are exhausted the pipeline halts. -/
def dispatchRecords (ceiling : Nat) (topicPrefix : String) :
    RecordingSink → List ChangeRecord → RecordingSink × DispatchResult
  | s, [] => (s, .ok)
  | s, r :: rest =>
    match emitWithRetry ceiling s (buildEnvelope topicPrefix r) with
    | (s₂, none) => dispatchRecords ceiling topicPrefix s₂ rest
    | (s₂, some err) => (s₂, .fatal err)

/-- Modelled from the spec: the Offset Store (not in the source files), the last confirmed
stream position, if any. -/
structure OffsetStore where
  confirmed : Option Nat
  deriving DecidableEq, Repr

/-- Modelled from the spec: `save` of the Offset Store (not in the source files); a position
earlier than the stored one is rejected. -/
def OffsetStore.save (o : OffsetStore) (position : Nat) : Except GoError OffsetStore :=
  match o.confirmed with
  | some p => if position < p then .error (.mk "OffsetRegressionError")
              else .ok { confirmed := some position }
  | none => .ok { confirmed := some position }

/-- The state `dispatch` leaves behind and its result. -/
structure DispatchOutcome where
  sink : RecordingSink
  store : OffsetStore
  result : DispatchResult

/-- Modelled from the spec: `dispatch(transaction) → DispatchResult` of the Dispatcher (not
in the source files). The confirmed position advances to the commit position only after every
record of the transaction has been emitted. -/
def dispatch (ceiling : Nat) (topicPrefix : String) (sink : RecordingSink)
    (store : OffsetStore) (t : Transaction) : DispatchOutcome :=
  match dispatchRecords ceiling topicPrefix sink t.records with
  | (s₂, .fatal err) => { sink := s₂, store := store, result := .fatal err }
  | (s₂, .ok) =>
    match store.save t.commitPosition with
    | .ok store₂ => { sink := s₂, store := store₂, result := .ok }
    | .error err => { sink := s₂, store := store, result := .fatal err }

/-- Modelled from the spec: the change records of a transaction that inserts `rows` in this
order into one relation (the decoder and the assembler are not in the source files). An
insert has an after image only; positions increase along the log. -/
def insertRecords (rel : RelationSchema) (ts : Time) :
    (start : Nat) → List (GoMap Value) → List ChangeRecord
  | _, [] => []
  | start, row :: rest =>
    { operation := .Insert, relation := rel, before := none, after := some row,
      position := start, commitTimestamp := ts } :: insertRecords rel ts (start + 1) rest

/-- Modelled from the spec: the committed transaction whose records are `insertRecords`,
its BEGIN at `start` and its COMMIT after the last insert. -/
def insertTransaction (rel : RelationSchema) (ts : Time) (start : Nat)
    (rows : List (GoMap Value)) : Transaction :=
  { records := insertRecords rel ts (start + 1) rows,
    commitPosition := start + 1 + rows.length,
    commitTimestamp := ts }

/-! ## Sample inputs -/

/-- The hypertable of the NATS test: columns `ts` and `val`, neither a key. -/
def testRelation : RelationSchema :=
  { schemaName := "tsdb", tableName := "metrics", version := 1,
    columns := [{ columnName := "ts", dataType := "timestamptz", nullable := false,
                  isKey := false },
                { columnName := "val", dataType := "integer", nullable := false,
                  isKey := false }] }

/-- Row `i` (counted from 0) of the test's insert: minute `i` of the series and `val = i + 1`. -/
def testRow (i : Nat) : GoMap Value :=
  GoMap.ofList [("ts", .int (1679702400 + 60 * i)), ("val", .int (i + 1))]

/-- The ten rows the test inserts. -/
def testRows : List (GoMap Value) := (List.range 10).map testRow

/-- A sink that has received nothing and whose attempts all succeed. -/
def freshSink : RecordingSink := { received := [], failures := [] }


/-- A sink as the factory builds it. -/
def demoSink : stdoutSink := { logger := NewLogger "StdoutSink" }

def demoTime : Time := { unixNano := 0 }

/-- An envelope with a payload and a schema entry. -/
def demoEnvelope : Struct Value :=
  some (GoMap.ofList [("payload", .str "row"), ("schema", .str "layout")])

/-- The same payload without a schema entry. -/
def payloadOnly : Struct Value :=
  some (GoMap.ofList [("payload", .str "row")])

/-- A non-nil envelope holding a schema entry and nothing else. -/
def schemaOnly : Struct Value :=
  some (GoMap.ofList [("schema", .str "layout")])

/-- A nil envelope. -/
def nilEnvelope : Struct Value := none

/-- An envelope whose payload cannot be serialised. -/
def badEnvelope : Struct Value :=
  some (GoMap.ofList [("payload", .unsupported "chan int"), ("schema", .str "layout")])

/-- A configuration holding the three properties of the stats service, each set or not. -/
structure DemoConfig where
  statsEnabled : Option Bool
  statsPort : Option Int
  runtimeStatsEnabled : Option Bool
  deriving DecidableEq, Repr

/-- A property lookup with default for `DemoConfig`; a nil configuration yields the defaults. -/
def demoGetBool (c : Option DemoConfig) (p : Property) (d : Bool) : Bool :=
  match c, p with
  | some cfg, .StatsEnabled => cfg.statsEnabled.getD d
  | some cfg, .RuntimeStatsEnabled => cfg.runtimeStatsEnabled.getD d
  | _, _ => d

def demoGetInt (c : Option DemoConfig) (p : Property) (d : Int) : Int :=
  match c, p with
  | some cfg, .StatsPort => cfg.statsPort.getD d
  | _, _ => d

/-- Stats switched off, runtime stats left at their default. -/
def statsOffConfig : Option DemoConfig :=
  some { statsEnabled := some false, statsPort := none, runtimeStatsEnabled := none }

/-- The listen error of a port that is already taken. -/
def addrInUse : GoError :=
  .wrap "listen tcp :8081" (.wrap "bind" (.mk "address already in use"))

/-! ## Facts about maps and the log -/

theorem Struct.lookup_delete_self {V : Type} (m : Struct V) (k : String) :
    (m.delete k).lookup k = none := by
  cases m with
  | none => rfl
  | some t => simp [Struct.delete, Struct.lookup, Finmap.lookup_erase]

theorem Struct.lookup_delete_ne {V : Type} (m : Struct V) {k k₀ : String} (h : k ≠ k₀) :
    (m.delete k₀).lookup k = m.lookup k := by
  cases m with
  | none => rfl
  | some t => simp [Struct.delete, Struct.lookup, Finmap.lookup_erase_ne h]

theorem Struct.delete_of_lookup_none {V : Type} (m : Struct V) (k : String)
    (h : m.lookup k = none) : m.delete k = m := by
  cases m with
  | none => rfl
  | some t =>
    have hk : Finmap.lookup k t = none := h
    have heq : Finmap.erase k t = t := by
      apply Finmap.ext_lookup
      intro x
      by_cases hx : x = k
      · subst hx
        rw [Finmap.lookup_erase, hk]
      · exact Finmap.lookup_erase_ne hx
    simp [Struct.delete, heq]

theorem Struct.delete_delete {V : Type} (m : Struct V) (k : String) :
    (m.delete k).delete k = m.delete k :=
  Struct.delete_of_lookup_none _ _ (Struct.lookup_delete_self m k)

/-- Two maps that are both nil or both non-nil and agree away from `k` are the same map once
`k` is deleted from each. -/
theorem Struct.delete_congr {V : Type} (m₁ m₂ : Struct V) (k : String)
    (hnil : m₁.isSome = m₂.isSome) (h : ∀ x, x ≠ k → m₁.lookup x = m₂.lookup x) :
    m₁.delete k = m₂.delete k := by
  cases m₁ with
  | none =>
    cases m₂ with
    | none => rfl
    | some t₂ => simp at hnil
  | some t₁ =>
    cases m₂ with
    | none => simp at hnil
    | some t₂ =>
      have heq : Finmap.erase k t₁ = Finmap.erase k t₂ := by
        apply Finmap.ext_lookup
        intro x
        by_cases hx : x = k
        · subst hx
          rw [Finmap.lookup_erase, Finmap.lookup_erase]
        · rw [Finmap.lookup_erase_ne hx, Finmap.lookup_erase_ne hx]
          exact h x hx
      simp [Struct.delete, heq]

theorem Emit_envelope {V : Type} (marshal : Struct V → Except GoError String)
    (s : stdoutSink) (ts : Time) (topicName : String) (key envelope : Struct V) :
    (s.Emit marshal ts topicName key envelope).envelope = envelope.delete "schema" := by
  unfold stdoutSink.Emit
  cases h : marshal (envelope.delete "schema") <;> simp only [h]

theorem Emit_of_error {V : Type} (marshal : Struct V → Except GoError String)
    (s : stdoutSink) (ts : Time) (topicName : String) (key envelope : Struct V) (e : GoError)
    (h : marshal (envelope.delete "schema") = .error e) :
    s.Emit marshal ts topicName key envelope =
      { sink := s, envelope := envelope.delete "schema", err := some e } := by
  unfold stdoutSink.Emit
  simp only [h]

theorem Emit_of_ok {V : Type} (marshal : Struct V → Except GoError String)
    (s : stdoutSink) (ts : Time) (topicName : String) (key envelope : Struct V) (data : String)
    (h : marshal (envelope.delete "schema") = .ok data) :
    s.Emit marshal ts topicName key envelope =
      { sink := { logger := s.logger.Infof (emitLine topicName data) },
        envelope := envelope.delete "schema", err := none } := by
  unfold stdoutSink.Emit
  simp only [h]

theorem loggedBy_self (s : stdoutSink) : loggedBy s s = [] := by
  simp [loggedBy]

theorem loggedBy_Infof (l : Logger) (line : String) :
    loggedBy { logger := l } { logger := l.Infof line } = [line] := by
  simp [loggedBy, Logger.Infof]

/-! ## The stdout sink: envelope after the call -/

/-- C1, as stated, fails: the envelope holding `payload` and `schema` has lost its `schema`
entry when `Emit` returns, so not every key present before the call is still present. -/
theorem Emit_demoEnvelope_loses_schema :
    ¬ (∀ k v, demoEnvelope.lookup k = some v →
        (demoSink.Emit jsonMarshal demoTime "topic" nilEnvelope demoEnvelope).envelope.lookup k
          = some v) := by
  intro h
  have h₁ := h "schema" (.str "layout") (by decide)
  rw [Emit_envelope, Struct.lookup_delete_self] at h₁
  exact Option.noConfusion h₁

/-- C1, amended: a call of `Emit` changes the caller's envelope at the key `schema` only.
Every key other than `schema` that is present before the call is still present with the same
value afterwards, no key that was absent before the call is present afterwards, a nil
envelope stays nil and a non-nil one non-nil, and the `schema` entry itself is deleted. -/
theorem Emit_keeps_other_keys {V : Type} (marshal : Struct V → Except GoError String)
    (s : stdoutSink) (ts : Time) (topicName : String) (key envelope : Struct V) :
    (∀ k v, k ≠ "schema" → envelope.lookup k = some v →
      (s.Emit marshal ts topicName key envelope).envelope.lookup k = some v) ∧
    (∀ k, envelope.lookup k = none →
      (s.Emit marshal ts topicName key envelope).envelope.lookup k = none) ∧
    (s.Emit marshal ts topicName key envelope).envelope.isSome = envelope.isSome ∧
    (s.Emit marshal ts topicName key envelope).envelope.lookup "schema" = none := by
  rw [Emit_envelope]
  refine ⟨?_, ?_, ?_, Struct.lookup_delete_self _ _⟩
  · intro k v hk hv
    rw [Struct.lookup_delete_ne envelope hk]
    exact hv
  · intro k hnone
    by_cases hk : k = "schema"
    · rw [hk]
      exact Struct.lookup_delete_self _ _
    · rw [Struct.lookup_delete_ne envelope hk]
      exact hnone
  · cases envelope <;> rfl

/-- C1, amended, at the sample envelope: `payload` survives the call, the absent key `other`
stays absent, the envelope stays non-nil and `schema` is gone. -/
theorem Emit_keeps_other_keys_witness :
    demoEnvelope.lookup "payload" = some (.str "row") ∧
    (demoSink.Emit jsonMarshal demoTime "topic" nilEnvelope demoEnvelope).envelope.lookup
      "payload" = some (.str "row") ∧
    demoEnvelope.lookup "other" = none ∧
    (demoSink.Emit jsonMarshal demoTime "topic" nilEnvelope demoEnvelope).envelope.lookup
      "other" = none ∧
    (demoSink.Emit jsonMarshal demoTime "topic" nilEnvelope demoEnvelope).envelope.isSome
      = true ∧
    demoEnvelope.lookup "schema" = some (.str "layout") ∧
    (demoSink.Emit jsonMarshal demoTime "topic" nilEnvelope demoEnvelope).envelope.lookup
      "schema" = none :=
  ⟨by decide,
    (Emit_keeps_other_keys jsonMarshal demoSink demoTime "topic" nilEnvelope demoEnvelope).1
      "payload" (.str "row") (by decide) (by decide),
    by decide,
    (Emit_keeps_other_keys jsonMarshal demoSink demoTime "topic" nilEnvelope demoEnvelope).2.1
      "other" (by decide),
    (Emit_keeps_other_keys jsonMarshal demoSink demoTime "topic" nilEnvelope
      demoEnvelope).2.2.1,
    by decide,
    (Emit_keeps_other_keys jsonMarshal demoSink demoTime "topic" nilEnvelope
      demoEnvelope).2.2.2⟩

/-- C7: after `Emit` returns, with or without an error, the envelope has no `schema` key and
every other key maps to what it mapped to before; an envelope without a `schema` key is left
as it was. -/
theorem Emit_envelope_after {V : Type} (marshal : Struct V → Except GoError String)
    (s : stdoutSink) (ts : Time) (topicName : String) (key envelope : Struct V) :
    (s.Emit marshal ts topicName key envelope).envelope.lookup "schema" = none ∧
    (∀ k, k ≠ "schema" →
      (s.Emit marshal ts topicName key envelope).envelope.lookup k = envelope.lookup k) ∧
    (envelope.lookup "schema" = none →
      (s.Emit marshal ts topicName key envelope).envelope = envelope) := by
  rw [Emit_envelope]
  exact ⟨Struct.lookup_delete_self _ _, fun k hk => Struct.lookup_delete_ne _ hk,
    fun h => Struct.delete_of_lookup_none _ _ h⟩

/-- C7 at an envelope without `schema`, which is left as it was, and at one whose payload
cannot be serialised, which loses `schema` all the same. -/
theorem Emit_envelope_after_witness :
    payloadOnly.lookup "schema" = none ∧
    (demoSink.Emit jsonMarshal demoTime "topic" nilEnvelope payloadOnly).envelope = payloadOnly ∧
    (demoSink.Emit jsonMarshal demoTime "topic" nilEnvelope badEnvelope).envelope.lookup "schema"
      = none :=
  ⟨by decide,
    (Emit_envelope_after jsonMarshal demoSink demoTime "topic" nilEnvelope payloadOnly).2.2
      (by decide),
    (Emit_envelope_after jsonMarshal demoSink demoTime "topic" nilEnvelope badEnvelope).1⟩

/-! ## The stdout sink: result and log line -/

/-- C3: `Emit` returns an error exactly when serialising the envelope without its `schema`
entry fails. The error returned is then the serialisation error and the log is untouched;
otherwise the one line `===> /topic: <tab>json<newline>` is appended and nil is returned. -/
theorem Emit_error_iff_marshal_fails {V : Type} (marshal : Struct V → Except GoError String)
    (s : stdoutSink) (ts : Time) (topicName : String) (key envelope : Struct V) :
    ((s.Emit marshal ts topicName key envelope).err ≠ none ↔
      ∃ e, marshal (envelope.delete "schema") = .error e) ∧
    (∀ e, marshal (envelope.delete "schema") = .error e →
      (s.Emit marshal ts topicName key envelope).err = some e ∧
      (s.Emit marshal ts topicName key envelope).sink = s) ∧
    (∀ data, marshal (envelope.delete "schema") = .ok data →
      (s.Emit marshal ts topicName key envelope).err = none ∧
      (s.Emit marshal ts topicName key envelope).sink.logger.lines =
        s.logger.lines ++ [emitLine topicName data]) := by
  refine ⟨?_, ?_, ?_⟩
  · cases h : marshal (envelope.delete "schema") with
    | error e => simp [Emit_of_error marshal s ts topicName key envelope e h]
    | ok data => simp [Emit_of_ok marshal s ts topicName key envelope data h]
  · intro e h
    simp [Emit_of_error marshal s ts topicName key envelope e h]
  · intro data h
    simp [Emit_of_ok marshal s ts topicName key envelope data h, Logger.Infof]

/-- C3 at an envelope holding a channel: the serialisation error is returned and the sink is
untouched. -/
theorem Emit_error_iff_marshal_fails_witness :
    jsonMarshal (badEnvelope.delete "schema") = .error (.mk "json: unsupported type: chan int") ∧
    (demoSink.Emit jsonMarshal demoTime "topic" nilEnvelope badEnvelope).err =
      some (.mk "json: unsupported type: chan int") ∧
    (demoSink.Emit jsonMarshal demoTime "topic" nilEnvelope badEnvelope).sink = demoSink :=
  ⟨by rfl,
    (Emit_error_iff_marshal_fails jsonMarshal demoSink demoTime "topic" nilEnvelope
      badEnvelope).2.1 _ (by rfl)⟩

/-- C2: a second call of `Emit` with the same arguments, on the envelope as the first call
left it, returns what the first call returned, writes the log line the first call wrote (or
none if the first wrote none), and leaves the envelope as the first call left it. -/
theorem Emit_twice {V : Type} (marshal : Struct V → Except GoError String)
    (s : stdoutSink) (ts : Time) (topicName : String) (key envelope : Struct V) :
    ((s.Emit marshal ts topicName key envelope).sink.Emit marshal ts topicName key
        (s.Emit marshal ts topicName key envelope).envelope).err =
      (s.Emit marshal ts topicName key envelope).err ∧
    loggedBy (s.Emit marshal ts topicName key envelope).sink
        ((s.Emit marshal ts topicName key envelope).sink.Emit marshal ts topicName key
          (s.Emit marshal ts topicName key envelope).envelope).sink =
      loggedBy s (s.Emit marshal ts topicName key envelope).sink ∧
    ((s.Emit marshal ts topicName key envelope).sink.Emit marshal ts topicName key
        (s.Emit marshal ts topicName key envelope).envelope).envelope =
      (s.Emit marshal ts topicName key envelope).envelope := by
  cases h : marshal (envelope.delete "schema") with
  | error e =>
    have h₂ : marshal ((envelope.delete "schema").delete "schema") = .error e := by
      rw [Struct.delete_delete]; exact h
    rw [Emit_of_error marshal s ts topicName key envelope e h]
    simp only [Emit_of_error marshal s ts topicName key (envelope.delete "schema") e h₂,
      Struct.delete_delete, loggedBy_self, and_self]
  | ok data =>
    have h₂ : marshal ((envelope.delete "schema").delete "schema") = .ok data := by
      rw [Struct.delete_delete]; exact h
    rw [Emit_of_ok marshal s ts topicName key envelope data h]
    simp only [Emit_of_ok marshal _ ts topicName key (envelope.delete "schema") data h₂,
      Struct.delete_delete, loggedBy_Infof]
    exact ⟨trivial, (loggedBy_Infof s.logger _).symm, trivial⟩

/-- C8, as stated, fails: a nil envelope and a non-nil envelope holding only a `schema` entry
agree on every key other than `schema`, yet the first is logged as `null` and the second as an
empty object. -/
theorem Emit_nil_versus_schemaOnly :
    (∀ k, k ≠ "schema" → nilEnvelope.lookup k = schemaOnly.lookup k) ∧
    loggedBy demoSink (demoSink.Emit jsonMarshal demoTime "topic" nilEnvelope nilEnvelope).sink
      = ["===> /topic: \tnull\n"] ∧
    loggedBy demoSink (demoSink.Emit jsonMarshal demoTime "topic" nilEnvelope schemaOnly).sink
      = ["===> /topic: \t\x7b\x7d\n"] ∧
    loggedBy demoSink (demoSink.Emit jsonMarshal demoTime "topic" nilEnvelope nilEnvelope).sink
      ≠ loggedBy demoSink
          (demoSink.Emit jsonMarshal demoTime "topic" nilEnvelope schemaOnly).sink := by
  refine ⟨?_, by decide, by decide, by decide⟩
  intro k hk
  simp [nilEnvelope, schemaOnly, Struct.lookup, GoMap.ofList, Finmap.lookup_insert_of_ne _ hk]

/-- C8, amended: the returned error and the logged line depend only on the topic name, on
whether the envelope is nil, and on the entries other than `schema`. Two calls with the same
topic name, on envelopes that are both nil or both non-nil and agree on every key except
`schema`, return the same error and log the same line, whatever the sinks' earlier output,
the timestamps, the keys and the `schema` values are; a line that is logged is
`===> /topic: <tab>json<newline>` for the JSON of the envelope without `schema`. -/
theorem Emit_depends_on_topic_and_payload {V : Type}
    (marshal : Struct V → Except GoError String) (s₁ s₂ : stdoutSink) (ts₁ ts₂ : Time)
    (topicName : String) (key₁ key₂ envelope₁ envelope₂ : Struct V)
    (hnil : envelope₁.isSome = envelope₂.isSome)
    (hagree : ∀ k, k ≠ "schema" → envelope₁.lookup k = envelope₂.lookup k) :
    (s₁.Emit marshal ts₁ topicName key₁ envelope₁).err =
      (s₂.Emit marshal ts₂ topicName key₂ envelope₂).err ∧
    loggedBy s₁ (s₁.Emit marshal ts₁ topicName key₁ envelope₁).sink =
      loggedBy s₂ (s₂.Emit marshal ts₂ topicName key₂ envelope₂).sink ∧
    (∀ data, marshal (envelope₁.delete "schema") = .ok data →
      loggedBy s₁ (s₁.Emit marshal ts₁ topicName key₁ envelope₁).sink =
        [emitLine topicName data]) := by
  have heq : envelope₁.delete "schema" = envelope₂.delete "schema" :=
    Struct.delete_congr envelope₁ envelope₂ "schema" hnil hagree
  cases h : marshal (envelope₁.delete "schema") with
  | error e =>
    rw [Emit_of_error marshal s₁ ts₁ topicName key₁ envelope₁ e h,
      Emit_of_error marshal s₂ ts₂ topicName key₂ envelope₂ e (heq ▸ h)]
    refine ⟨rfl, ?_, ?_⟩
    · rw [loggedBy_self, loggedBy_self]
    · intro data hd
      exact Except.noConfusion hd
  | ok data =>
    rw [Emit_of_ok marshal s₁ ts₁ topicName key₁ envelope₁ data h,
      Emit_of_ok marshal s₂ ts₂ topicName key₂ envelope₂ data (heq ▸ h)]
    refine ⟨rfl, ?_, ?_⟩
    · exact (loggedBy_Infof s₁.logger _).trans (loggedBy_Infof s₂.logger _).symm
    · intro data₂ hd
      have hd₂ : data = data₂ := Except.ok.inj hd
      rw [← hd₂]
      exact loggedBy_Infof s₁.logger _

/-- C8, amended, at two calls that differ in sink output so far, timestamp, key and `schema`
entry: both log the same line. -/
theorem Emit_depends_on_topic_and_payload_witness :
    loggedBy demoSink
        (demoSink.Emit jsonMarshal demoTime "topic" nilEnvelope demoEnvelope).sink =
      loggedBy { logger := demoSink.logger.Infof "earlier" }
        (stdoutSink.Emit jsonMarshal { logger := demoSink.logger.Infof "earlier" }
          { unixNano := 7 } "topic" schemaOnly payloadOnly).sink ∧
    loggedBy demoSink
        (demoSink.Emit jsonMarshal demoTime "topic" nilEnvelope demoEnvelope).sink =
      [emitLine "topic" ("\x7b" ++ quoteMark ++ "payload" ++ quoteMark ++ ":" ++
        quoteMark ++ "row" ++ quoteMark ++ "\x7d")] := by
  have hagree : ∀ k, k ≠ "schema" → demoEnvelope.lookup k = payloadOnly.lookup k := by
    intro k hk
    by_cases hp : k = "payload"
    · subst hp
      decide
    · simp [demoEnvelope, payloadOnly, Struct.lookup, GoMap.ofList,
        Finmap.lookup_insert_of_ne _ hk, Finmap.lookup_insert_of_ne _ hp]
  have h := Emit_depends_on_topic_and_payload jsonMarshal demoSink
    { logger := demoSink.logger.Infof "earlier" } demoTime { unixNano := 7 } "topic"
    nilEnvelope schemaOnly demoEnvelope payloadOnly (by decide) hagree
  exact ⟨h.2.1, h.2.2 _ (by rfl)⟩

/-! ## The stdout sink factory -/

/-- C6: for every configuration, a nil one included, `newStdoutSink` returns a non-nil sink
together with a nil error, and it returns the same sink whatever the configuration is. -/
theorem newStdoutSink_succeeds {Cfg : Type} (c : Option Cfg) :
    (∃ s : stdoutSink, (newStdoutSink c).1 = some s) ∧
    (newStdoutSink c).2 = none ∧
    (∀ c₂ : Option Cfg, newStdoutSink c₂ = newStdoutSink c) ∧
    newStdoutSink c = newStdoutSink (none : Option Cfg) :=
  ⟨⟨_, rfl⟩, rfl, fun _ => rfl, rfl⟩

/-! ## The stats service -/

/-- C5, as stated, fails: with stats enabled and the port taken, `ListenAndServe` returns a
listen error, and the goroutine `Start` launched panics with it. -/
theorem Start_panics_when_port_taken :
    (Service.Start (fun _ => some addrInUse)
      (NewStatsService "streamer" demoGetBool demoGetInt none)).goroutine
      = some (.panicked addrInUse) ∧
    (Service.Start (fun _ => some addrInUse)
      (NewStatsService "streamer" demoGetBool demoGetInt none)).aborts = true := by
  constructor <;> decide

/-- C5, amended: `Service.Start` returns nil for every service and every result of
`ListenAndServe`. A panic is raised exactly when stats are enabled and `ListenAndServe`
returns an error that is not `http.ErrServerClosed`, and the panic value is that error; with
stats disabled no goroutine is launched at all. -/
theorem Start_returns_nil (listenAndServe : Server → Option GoError) (s : Service) :
    (s.Start listenAndServe).err = none ∧
    ((s.Start listenAndServe).aborts = true ↔
      s.statsEnabled = true ∧
        ∃ e, listenAndServe s.server = some e ∧ e.Is ErrServerClosed = false) ∧
    (∀ e, (s.Start listenAndServe).goroutine = some (.panicked e) →
      listenAndServe s.server = some e) ∧
    (s.statsEnabled = false → (s.Start listenAndServe).goroutine = none) := by
  unfold Service.Start StartOutcome.aborts serve
  cases hs : s.statsEnabled with
  | false => simp
  | true =>
    cases hl : listenAndServe s.server with
    | none => simp
    | some e => cases hi : e.Is ErrServerClosed <;> simp [hi]

/-- C5, amended: no panic after `http.ErrServerClosed`, and no goroutine when stats are off. -/
theorem Start_returns_nil_witness :
    (Service.Start (fun _ => some ErrServerClosed)
      (NewStatsService "streamer" demoGetBool demoGetInt none)).aborts = false ∧
    (Service.Start (fun _ => some addrInUse)
      (NewStatsService "streamer" demoGetBool demoGetInt statsOffConfig)).goroutine = none :=
  ⟨by decide,
    (Start_returns_nil (fun _ => some addrInUse)
      (NewStatsService "streamer" demoGetBool demoGetInt statsOffConfig)).2.2.2 (by decide)⟩

/-- C9: `Service.Stop` acts only when `statsEnabled` is true. When it is false, `Stop`
returns nil and leaves the collector and the server alone, so the collector that
`NewStatsService` started (runtime stats on, stats off) is still running after any number of
calls of `Stop`. When it is true, `Stop` closes the collector if there is one, calls the
server's `Shutdown` once and returns exactly what `Shutdown` returned. -/
theorem Stop_acts_iff_statsEnabled (shutdown : Server → Option GoError) (s : Service) :
    (s.statsEnabled = false → s.Stop shutdown = (s, none)) ∧
    (s.statsEnabled = true →
      (s.Stop shutdown).2 = shutdown s.server ∧
      (s.Stop shutdown).1.server.shutdowns = s.server.shutdowns + 1 ∧
      (s.Stop shutdown).1.runtimeMetricsCloser = s.runtimeMetricsCloser.map Collector.Close ∧
      (∀ c, (s.Stop shutdown).1.runtimeMetricsCloser = some c → c.closed = true)) ∧
    (∀ (Cfg : Type) (binName : String) (getBool : Option Cfg → Property → Bool → Bool)
        (getInt : Option Cfg → Property → Int → Int) (c : Option Cfg) (n : Nat),
      getBool c .RuntimeStatsEnabled true = true → getBool c .StatsEnabled true = false →
      ((fun t : Service => (t.Stop shutdown).1)^[n]
          (NewStatsService binName getBool getInt c)).runtimeMetricsCloser
        = some { closed := false }) := by
  refine ⟨?_, ?_, ?_⟩
  · intro h
    simp [Service.Stop, h]
  · intro h
    refine ⟨by simp [Service.Stop, h], by simp [Service.Stop, h], by simp [Service.Stop, h], ?_⟩
    intro c hc
    cases hcl : s.runtimeMetricsCloser with
    | none => simp [Service.Stop, h, hcl] at hc
    | some c₀ =>
      simp [Service.Stop, h, hcl] at hc
      rw [← hc]
      rfl
  · intro Cfg binName getBool getInt c n hr he
    have hfix : (fun t : Service => (t.Stop shutdown).1)
        (NewStatsService binName getBool getInt c) = NewStatsService binName getBool getInt c := by
      simp [Service.Stop, NewStatsService, he]
    rw [Function.iterate_fixed hfix]
    simp [NewStatsService, hr]

/-- C9 at a service with stats off, whose collector keeps running, and at one with the
defaults, whose collector is closed and whose `Stop` returns the result of `Shutdown`. -/
theorem Stop_acts_iff_statsEnabled_witness :
    (NewStatsService "streamer" demoGetBool demoGetInt statsOffConfig).runtimeMetricsCloser
      = some { closed := false } ∧
    ((NewStatsService "streamer" demoGetBool demoGetInt statsOffConfig).Stop
        (fun _ => some addrInUse)).1.runtimeMetricsCloser = some { closed := false } ∧
    ((NewStatsService "streamer" demoGetBool demoGetInt none).Stop
        (fun _ => some addrInUse)).2 = some addrInUse ∧
    ((NewStatsService "streamer" demoGetBool demoGetInt none).Stop
        (fun _ => some addrInUse)).1.runtimeMetricsCloser = some { closed := true } := by
  have h₁ := (Stop_acts_iff_statsEnabled (fun _ => some addrInUse)
    (NewStatsService "streamer" demoGetBool demoGetInt statsOffConfig)).2.2 DemoConfig
    "streamer" demoGetBool demoGetInt statsOffConfig 1 (by decide) (by decide)
  have h₂ := (Stop_acts_iff_statsEnabled (fun _ => some addrInUse)
    (NewStatsService "streamer" demoGetBool demoGetInt none)).2.1 (by decide)
  exact ⟨by decide, h₁, h₂.1, by decide⟩

/-! ## Dispatch of a transaction -/

theorem emit_received (s : RecordingSink) (ts : Time) (topicName : String)
    (key : List Value) (e : Envelope) :
    ((s.emit ts topicName key e).2 = none ∧
      (s.emit ts topicName key e).1.received = s.received ++ [e]) ∨
    ((s.emit ts topicName key e).2 ≠ none ∧
      (s.emit ts topicName key e).1.received = s.received) := by
  unfold RecordingSink.emit
  rcases hf : s.failures with _ | ⟨b, rest⟩
  · simp
  · cases b <;> simp

theorem emit_failures (s : RecordingSink) (ts : Time) (topicName : String)
    (key : List Value) (e : Envelope) (h : ∀ b ∈ s.failures, b = false) :
    (s.emit ts topicName key e).2 = none ∧
    ∀ b ∈ (s.emit ts topicName key e).1.failures, b = false := by
  unfold RecordingSink.emit
  rcases hf : s.failures with _ | ⟨b, rest⟩
  · simp [hf]
  · rw [hf] at h
    have hb : b = false := h b (List.mem_cons_self _ _)
    subst hb
    exact ⟨rfl, fun b hb => h b (List.mem_cons_of_mem _ hb)⟩

theorem emitWithRetry_received (n : Nat) (s : RecordingSink) (e : Envelope) :
    ((emitWithRetry n s e).2 = none ∧ (emitWithRetry n s e).1.received = s.received ++ [e]) ∨
    ((emitWithRetry n s e).2 ≠ none ∧ (emitWithRetry n s e).1.received = s.received) := by
  induction n generalizing s with
  | zero => right; simp [emitWithRetry]
  | succ n ih =>
    unfold emitWithRetry
    rcases emit_received s e.source.timestamp e.topic e.key e with ⟨h₁, h₂⟩ | ⟨h₁, h₂⟩
    · left
      rcases hem : s.emit e.source.timestamp e.topic e.key e with ⟨s₂, r⟩
      rw [hem] at h₁ h₂
      simp only at h₁ h₂
      subst h₁
      exact ⟨rfl, h₂⟩
    · rcases hem : s.emit e.source.timestamp e.topic e.key e with ⟨s₂, r⟩
      rw [hem] at h₁ h₂
      simp only at h₁ h₂
      cases r with
      | none => exact absurd rfl h₁
      | some err =>
        simp only
        rw [← h₂]
        exact ih s₂

theorem emitWithRetry_of_no_failures (n : Nat) (s : RecordingSink) (e : Envelope)
    (hn : 0 < n) (h : ∀ b ∈ s.failures, b = false) :
    (emitWithRetry n s e).2 = none ∧ ∀ b ∈ (emitWithRetry n s e).1.failures, b = false := by
  cases n with
  | zero => exact absurd hn (Nat.lt_irrefl 0)
  | succ n =>
    unfold emitWithRetry
    have he := emit_failures s e.source.timestamp e.topic e.key e h
    rcases hem : s.emit e.source.timestamp e.topic e.key e with ⟨s₂, r⟩
    rw [hem] at he
    simp only at he
    rcases he with ⟨h₁, h₂⟩
    subst h₁
    exact ⟨rfl, h₂⟩

/-- The envelopes received during the delivery loop are those of a leading part of the
records, in order, after the ones received earlier; all records when the loop succeeds. -/
theorem dispatchRecords_received (ceiling : Nat) (topicPrefix : String)
    (records : List ChangeRecord) (s : RecordingSink) :
    ∃ k, k ≤ records.length ∧
      (dispatchRecords ceiling topicPrefix s records).1.received =
        s.received ++ (records.take k).map (buildEnvelope topicPrefix) ∧
      ((dispatchRecords ceiling topicPrefix s records).2 = .ok → k = records.length) := by
  induction records generalizing s with
  | nil => exact ⟨0, Nat.le_refl 0, by simp [dispatchRecords], fun _ => rfl⟩
  | cons r rest ih =>
    unfold dispatchRecords
    rcases emitWithRetry_received ceiling s (buildEnvelope topicPrefix r) with
      ⟨h₁, h₂⟩ | ⟨h₁, h₂⟩
    · rcases hem : emitWithRetry ceiling s (buildEnvelope topicPrefix r) with ⟨s₂, res⟩
      rw [hem] at h₁ h₂
      simp only at h₁ h₂
      subst h₁
      obtain ⟨k, hk, hrec, hok⟩ := ih s₂
      refine ⟨k + 1, by simpa using hk, ?_, ?_⟩
      · simp only [hrec, h₂, List.take_succ_cons, List.map_cons, List.append_assoc,
          List.singleton_append]
      · intro h
        simp only [List.length_cons, Nat.add_right_cancel_iff]
        exact hok h
    · rcases hem : emitWithRetry ceiling s (buildEnvelope topicPrefix r) with ⟨s₂, res⟩
      rw [hem] at h₁ h₂
      simp only at h₁ h₂
      cases res with
      | none => exact absurd rfl h₁
      | some err =>
        refine ⟨0, Nat.zero_le _, by simp [h₂], ?_⟩
        intro h
        exact DispatchResult.noConfusion h

theorem dispatchRecords_of_no_failures (ceiling : Nat) (topicPrefix : String)
    (records : List ChangeRecord) (s : RecordingSink) (hc : 0 < ceiling)
    (h : ∀ b ∈ s.failures, b = false) :
    (dispatchRecords ceiling topicPrefix s records).2 = .ok := by
  induction records generalizing s with
  | nil => rfl
  | cons r rest ih =>
    unfold dispatchRecords
    have he := emitWithRetry_of_no_failures ceiling s (buildEnvelope topicPrefix r) hc h
    rcases hem : emitWithRetry ceiling s (buildEnvelope topicPrefix r) with ⟨s₂, res⟩
    rw [hem] at he
    simp only at he
    rcases he with ⟨h₁, h₂⟩
    subst h₁
    exact ih s₂ h₂

theorem insertRecords_after (rel : RelationSchema) (ts : Time) (start : Nat)
    (rows : List (GoMap Value)) :
    (insertRecords rel ts start rows).map ChangeRecord.after = rows.map some := by
  induction rows generalizing start with
  | nil => rfl
  | cons row rest ih => simp [insertRecords, ih]

theorem dispatch_sink (ceiling : Nat) (topicPrefix : String) (sink : RecordingSink)
    (store : OffsetStore) (t : Transaction) :
    (dispatch ceiling topicPrefix sink store t).sink =
      (dispatchRecords ceiling topicPrefix sink t.records).1 ∧
    ((dispatch ceiling topicPrefix sink store t).result = .ok →
      (dispatchRecords ceiling topicPrefix sink t.records).2 = .ok) := by
  unfold dispatch
  rcases hd : dispatchRecords ceiling topicPrefix sink t.records with ⟨s₂, res⟩
  cases res with
  | fatal err => exact ⟨rfl, fun h => DispatchResult.noConfusion h⟩
  | ok =>
    cases hs : store.save t.commitPosition with
    | ok store₂ => simp [hs]
    | error err => simp [hs]

theorem dispatch_received_after (ceiling : Nat) (topicPrefix : String) (rel : RelationSchema)
    (ts : Time) (start : Nat) (rows : List (GoMap Value)) (failures : List Bool)
    (store : OffsetStore) :
    ∃ k, k ≤ rows.length ∧
      (dispatch ceiling topicPrefix { received := [], failures := failures } store
        (insertTransaction rel ts start rows)).sink.received.map Envelope.after =
        (rows.take k).map some ∧
      ((dispatch ceiling topicPrefix { received := [], failures := failures } store
        (insertTransaction rel ts start rows)).result = .ok → k = rows.length) := by
  have hs := dispatch_sink ceiling topicPrefix { received := [], failures := failures } store
    (insertTransaction rel ts start rows)
  obtain ⟨k, hk, hrec, hok⟩ := dispatchRecords_received ceiling topicPrefix
    (insertTransaction rel ts start rows).records { received := [], failures := failures }
  have hlen : (insertTransaction rel ts start rows).records.length = rows.length := by
    have h := congrArg List.length (insertRecords_after rel ts (start + 1) rows)
    simpa [insertTransaction] using h
  have hafter : (fun r => (buildEnvelope topicPrefix r).after) = ChangeRecord.after := rfl
  refine ⟨k, hlen ▸ hk, ?_, fun h => hlen ▸ hok (hs.2 h)⟩
  rw [hs.1, hrec]
  simp only [List.nil_append, List.map_map, Function.comp_def, hafter]
  rw [List.map_take, List.map_take]
  exact congrArg (List.take k) (insertRecords_after rel ts (start + 1) rows)

/-- C4: a committed transaction that inserts `rows` in this order is dispatched to a sink that
has received nothing yet. Whatever attempts fail and whatever the attempt ceiling is, the
i-th envelope the sink receives (from 0) carries the after image of the (i+1)-th inserted
row; when `dispatch` succeeds the sink has received one envelope per row, in row order; and
it succeeds when no attempt fails, the ceiling allows an attempt and the stored offset does
not lie past the transaction. -/
theorem dispatch_delivers_in_row_order (ceiling : Nat) (topicPrefix : String)
    (rel : RelationSchema) (ts : Time) (start : Nat) (rows : List (GoMap Value))
    (failures : List Bool) (store : OffsetStore) :
    (∀ (i : Nat) (e : Envelope),
      (dispatch ceiling topicPrefix { received := [], failures := failures } store
        (insertTransaction rel ts start rows)).sink.received[i]? = some e →
      ∃ row, rows[i]? = some row ∧ e.after = some row) ∧
    ((dispatch ceiling topicPrefix { received := [], failures := failures } store
        (insertTransaction rel ts start rows)).result = .ok →
      (dispatch ceiling topicPrefix { received := [], failures := failures } store
        (insertTransaction rel ts start rows)).sink.received.map Envelope.after =
        rows.map some) ∧
    (0 < ceiling → (∀ b ∈ failures, b = false) →
      (∀ p, store.confirmed = some p → p ≤ start) →
      (dispatch ceiling topicPrefix { received := [], failures := failures } store
        (insertTransaction rel ts start rows)).result = .ok) := by
  obtain ⟨k, hk, hrec, hok⟩ :=
    dispatch_received_after ceiling topicPrefix rel ts start rows failures store
  refine ⟨?_, ?_, ?_⟩
  · intro i e hi
    have h₁ : ((dispatch ceiling topicPrefix { received := [], failures := failures } store
        (insertTransaction rel ts start rows)).sink.received.map Envelope.after)[i]? =
        some e.after := by
      rw [List.getElem?_map, hi]
      rfl
    rw [hrec, List.getElem?_map] at h₁
    cases hrow : (rows.take k)[i]? with
    | none => rw [hrow] at h₁; exact Option.noConfusion h₁
    | some row =>
      rw [hrow] at h₁
      have hlt : i < k := by
        by_contra hge
        rw [List.getElem?_eq_none (by
          rw [List.length_take]; exact Nat.le_trans (Nat.min_le_left _ _) (Nat.le_of_not_lt hge))]
          at hrow
        exact Option.noConfusion hrow
      rw [List.getElem?_take_of_lt hlt] at hrow
      exact ⟨row, hrow, (Option.some.inj h₁).symm⟩
  · intro h
    rw [hrec, hok h, List.take_length]
  · intro hc hf hp
    have hd := dispatchRecords_of_no_failures ceiling topicPrefix
      (insertTransaction rel ts start rows).records { received := [], failures := failures }
      hc hf
    unfold dispatch
    rcases hdr : dispatchRecords ceiling topicPrefix { received := [], failures := failures }
      (insertTransaction rel ts start rows).records with ⟨s₂, res⟩
    rw [hdr] at hd
    simp only at hd
    subst hd
    simp only
    cases hconf : store.confirmed with
    | none => simp [OffsetStore.save, hconf]
    | some p =>
      have hle : ¬ (insertTransaction rel ts start rows).commitPosition < p := by
        have := hp p hconf
        simp only [insertTransaction]
        omega
      simp [OffsetStore.save, hconf, hle]

/-- C4 at the ten rows of the NATS test: dispatch succeeds and the envelopes carry `val` = 1,
..., 10 in this order. -/
theorem dispatch_delivers_in_row_order_witness :
    (dispatch 3 "pfx" { received := [], failures := [] } { confirmed := none }
      (insertTransaction testRelation demoTime 0 testRows)).result = .ok ∧
    (dispatch 3 "pfx" { received := [], failures := [] } { confirmed := none }
      (insertTransaction testRelation demoTime 0 testRows)).sink.received.map
        (fun e => e.after.bind (Finmap.lookup "val")) =
      (List.range 10).map (fun i => some (.int (Int.ofNat i + 1))) := by
  have h := dispatch_delivers_in_row_order 3 "pfx" testRelation demoTime 0 testRows []
    { confirmed := none }
  have hok := h.2.2 (by decide) (by simp) (by simp)
  refine ⟨hok, ?_⟩
  have hmap := congrArg (List.map (fun a : Option (GoMap Value) => a.bind (Finmap.lookup "val")))
    (h.2.1 hok)
  rw [List.map_map] at hmap
  rw [show (fun e : Envelope => e.after.bind (Finmap.lookup "val")) =
    (fun a : Option (GoMap Value) => a.bind (Finmap.lookup "val")) ∘ Envelope.after from rfl,
    hmap]
  decide

end Streamer

